import Mathlib

/-!
Verification of the FontFinder AI repository (two source files:
`src/App.tsx` and `src/services/fontService.ts`) against its
natural-language specification.

The TypeScript code is shallowly embedded: the UI state held by the top
level component becomes a structure, the event handlers become pure state
transformers, and the single outbound SDK call inside `identifyFonts` is
represented by an explicit `GatewayOutcome` parameter (the call either
rejects or resolves with an optional response body) together with a
`parse` parameter standing for `JSON.parse` (returning `none` where the
library call would throw).  The trace of constructed clients and issued
requests is returned alongside the result so that claims about "no
network call happens" are expressible.
-/

deriving instance DecidableEq for Except

namespace FontFinder

/-- Sample characters attached to a font record, one ordered bucket per
script, mirroring the `sampleCharacters` object of the `FontInfo`
interface in `fontService.ts`. -/
structure SampleCharacters where
  english : List String
  persian : List String
  numbers : List String
deriving DecidableEq, Repr

/-- One detected font, mirroring the `FontInfo` interface in
`fontService.ts`.  The JavaScript `number` field `confidence` is embedded
as a rational; no claim computes with it. -/
structure FontInfo where
  name : String
  confidence : ℚ
  isFree : Bool
  downloadUrl : String
  description : String
  sampleCharacters : SampleCharacters
deriving DecidableEq, Repr

/-- Process environment as seen by `fontService.ts`: only
`process.env.GEMINI_API_KEY` is read, a string that may be absent. -/
structure Env where
  geminiApiKey : Option String
deriving DecidableEq, Repr

/-- JavaScript falsiness of a `string | undefined / null` value: `!x` is
true exactly when the value is absent or the empty string.  Used by
`if (!apiKey)`, `if (!image)`, `if (!text)` and `!image || loading` in
the source. -/
def jsFalsy : Option String → Bool
  | none => true
  | some s => s == ""

/-- Outcome of the awaited `ai.models.generateContent` call: the promise
either rejects or resolves with a response whose `.text` accessor yields
an optional string. -/
inductive GatewayOutcome where
  | reject
  | resolve (text : Option String)
deriving DecidableEq, Repr

/-- The observable content of one outbound request as built in
`identifyFonts`: the model name and the `inlineData` part (declared MIME
type and payload). -/
structure GenRequest where
  model : String
  mimeType : String
  data : String
deriving DecidableEq, Repr

/-- Trace of external effects of one `identifyFonts` run: whether
`new GoogleGenAI({apiKey})` was evaluated and which requests were issued. -/
structure CallTrace where
  clientConstructed : Bool
  requests : List GenRequest
deriving DecidableEq, Repr

/-- JavaScript `s.split(",")` on the character list: comma-separated
segments, keeping empty segments, with `[""]` for the empty input, as the
ECMAScript operation does.  Structural recursion so the kernel can
evaluate it (the result list is never empty; the `[]` match arm is
unreachable). -/
def splitCharsOnComma : List Char → List (List Char)
  | [] => [[]]
  | c :: rest =>
    match splitCharsOnComma rest with
    | [] => if c = ',' then [[], []] else [[c]]
    | h :: t => if c = ',' then [] :: h :: t else (c :: h) :: t

/-- JavaScript `s.split(",")` as a `String` operation. -/
def jsSplitComma (s : String) : List String :=
  (splitCharsOnComma s.toList).map String.mk

/-- JavaScript `parts.join(",")`, used only to state what "the substring
after the first comma" of the specification claim denotes. -/
def joinWithComma : List String → String
  | [] => ""
  | [x] => x
  | x :: y :: xs => x ++ "," ++ joinWithComma (y :: xs)

/-- The payload expression `base64Image.split(",")[1] || base64Image` of
`fontService.ts`: the element at index 1 of the comma-split when it
exists and is non-empty (JavaScript `||` falls back on `undefined` and on
the empty string), otherwise the whole input. -/
def payloadData (base64Image : String) : String :=
  match (jsSplitComma base64Image)[1]? with
  | none => base64Image
  | some t => if t == "" then base64Image else t

/-- Embedding of `identifyFonts` from `fontService.ts`.  Returns the
result (`Except.error ()` where the TypeScript function throws or the
awaited call rejects) together with the effect trace.  `parse` stands for
`JSON.parse` on the response body, `none` meaning the parse threw. -/
def identifyFonts (env : Env) (base64Image : String) (outcome : GatewayOutcome)
    (parse : String → Option (List FontInfo)) :
    Except Unit (List FontInfo) × CallTrace :=
  if jsFalsy env.geminiApiKey then
    (Except.error (), ⟨false, []⟩)
  else
    let req : GenRequest :=
      ⟨"gemini-3.1-pro-preview", "image/jpeg", payloadData base64Image⟩
    let trace : CallTrace := ⟨true, [req]⟩
    match outcome with
    | GatewayOutcome.reject => (Except.error (), trace)
    | GatewayOutcome.resolve text =>
      match text with
      | none => (Except.ok [], trace)
      | some t =>
        if t == "" then (Except.ok [], trace)
        else
          match parse t with
          | none => (Except.ok [], trace)
          | some fonts => (Except.ok fonts, trace)

/-- The UI state held by the `App` component in `App.tsx`. -/
structure UIState where
  image : Option String
  loading : Bool
  results : List FontInfo
  error : Option String
  copiedChar : Option String
deriving DecidableEq, Repr

/-- The literal shown when `identifyFonts` resolves with an empty array. -/
def noFontsMsg : String := "No fonts could be identified. Try a clearer image."

/-- The literal shown when the call to `identifyFonts` rejects. -/
def genericErrorMsg : String := "An error occurred during analysis. Please try again."

/-- Embedding of `handleAnalyze` from `App.tsx` as a state transformer.
The early `if (!image) return` guard, the `setLoading(true)` and
`setError(null)` prologue, the `try`, `catch` and `finally` blocks are
translated branch by branch; on rejection `setResults` is never called. -/
def handleAnalyze (env : Env) (parse : String → Option (List FontInfo))
    (outcome : GatewayOutcome) (s : UIState) : UIState :=
  if jsFalsy s.image then s
  else
    let s1 : UIState := { s with loading := true, error := none }
    match (identifyFonts env (s.image.getD "") outcome parse).1 with
    | Except.ok fonts =>
      let s2 : UIState := { s1 with results := fonts }
      let s3 : UIState :=
        if fonts.length == 0 then { s2 with error := some noFontsMsg } else s2
      { s3 with loading := false }
    | Except.error _ =>
      { s1 with error := some genericErrorMsg, loading := false }

/-- Embedding of `copyToClipboard` from `App.tsx`: writes the character
to the system clipboard (an external effect outside the UI state) and
sets `copiedChar` to it.  The delayed reset by `setTimeout` is a later,
separate event and is not part of this transition. -/
def copyToClipboard (char : String) (s : UIState) : UIState :=
  { s with copiedChar := some char }

/-- The font cards rendered by `App.tsx`: the branch
`results.length > 0 ? results.map(...) : placeholder` renders one card
per element of `results`, in order, and none otherwise. -/
def renderedCards (s : UIState) : List FontInfo :=
  if s.results.length > 0 then s.results else []

/-- The character cells of one rendered card, in display order: the
numbers row, then the English row, then the Persian row. -/
def cellChars (f : FontInfo) : List String :=
  f.sampleCharacters.numbers ++ f.sampleCharacters.english ++ f.sampleCharacters.persian

/-- Whether a rendered character cell displaying `char` shows the copied
indicator: every cell renders it under the condition
`copiedChar === char`, independent of the card or position. -/
def showsCopiedIndicator (s : UIState) (char : String) : Bool :=
  s.copiedChar == some char

/-- The `disabled={!image || loading}` condition on the analysis trigger
button in `App.tsx`. -/
def triggerDisabled (s : UIState) : Bool :=
  jsFalsy s.image || s.loading

/-- An accepted file as the `onDrop` callback sees it, reduced to the
data URL that `FileReader.readAsDataURL` produces for it. -/
structure JsFile where
  dataUrl : String
deriving DecidableEq, Repr

/-- Embedding of the `onDrop` callback of `App.tsx`: it takes
`acceptedFiles[0]`; if present, the reader loads it and the `onload`
handler sets the image to the data URL, clears the results and clears the
error; with no accepted file nothing happens. -/
def onDrop (acceptedFiles : List JsFile) (s : UIState) : UIState :=
  match acceptedFiles.head? with
  | none => s
  | some f => { s with image := some f.dataUrl, results := [], error := none }

/-- The payload as the specification claim words it: the substring after
the FIRST comma when such a non-empty substring exists, and the entire
input string otherwise.  Kept separate from `payloadData` (the code) so
the two can be compared. -/
def claimedPayload (s : String) : String :=
  match jsSplitComma s with
  | [] => s
  | [_] => s
  | _ :: rest =>
    let t := joinWithComma rest
    if t == "" then s else t

/-- The rational 0.92 given in lowest terms so that the kernel can
evaluate equality on it without normalising. -/
def conf92 : ℚ := ⟨23, 25, by norm_num, by norm_num⟩

/-- A concrete well-formed font record, the example of spec section 8. -/
def font0 : FontInfo :=
  ⟨"Vazirmatn", conf92, true, "https://fonts.google.com/specimen/Vazirmatn",
   "A Persian sans-serif typeface.", ⟨["A", "B"], ["ا", "ب"], ["1", "2"]⟩⟩

/-- A UI state with an image loaded and one previously rendered result,
reachable by a successful analysis run. -/
def stateWithResult : UIState :=
  ⟨some "data:image/jpeg;base64,AAAA", false, [font0], none, none⟩

/-- A UI state with an image loaded and no results yet. -/
def stateImgOnly : UIState :=
  ⟨some "data:image/jpeg;base64,AAAA", false, [], none, none⟩

/-- A concrete accepted file, reduced to its data URL. -/
def file0 : JsFile := ⟨"data:image/png;base64,BBBB"⟩

/-- C4: if the GEMINI_API_KEY environment value is absent, `identifyFonts`
throws (here: returns `Except.error`) for every input image string, never
constructs the client and issues no network request. -/
theorem missing_key_fails_without_any_call (img : String) (outcome : GatewayOutcome)
    (parse : String → Option (List FontInfo)) :
    identifyFonts ⟨none⟩ img outcome parse = (Except.error (), ⟨false, []⟩) := rfl

/-- C2: for every response body, `identifyFonts` resolves (never throws)
with either the full parsed array or the empty array: a missing body, an
empty body, or a body on which the JSON parse fails all yield `[]`, and a
successful parse yields the parsed array whole. -/
theorem identifyFonts_all_or_nothing (env : Env) (img : String) (text : Option String)
    (parse : String → Option (List FontInfo)) (hkey : jsFalsy env.geminiApiKey = false) :
    (identifyFonts env img (GatewayOutcome.resolve text) parse).1 =
      Except.ok (match text with
        | none => []
        | some t => if t == "" then [] else (parse t).getD []) := by
  unfold identifyFonts
  rw [hkey]
  cases text with
  | none => rfl
  | some t =>
    by_cases h : t == "" <;> cases hp : parse t <;> simp [h, hp]

/-- Closed witness for `identifyFonts_all_or_nothing`: a concrete
unparseable body yields the empty array. -/
theorem identifyFonts_all_or_nothing_witness :
    (identifyFonts ⟨some "k"⟩ "img" (GatewayOutcome.resolve (some "nonsense"))
        (fun _ => none)).1 = Except.ok [] := by
  have h := identifyFonts_all_or_nothing ⟨some "k"⟩ "img" (some "nonsense")
    (fun _ => none) (by decide)
  simpa using h

/-- C9 counterexample: on the input string `"a,b,c"` the code sends the
segment between the first and second commas (`"b"`), not the substring
after the first comma (`"b,c"`) that the claim describes. -/
theorem payload_not_suffix_after_first_comma :
    (identifyFonts ⟨some "key"⟩ "a,b,c" GatewayOutcome.reject (fun _ => none)).2.requests =
      [⟨"gemini-3.1-pro-preview", "image/jpeg", "b"⟩] ∧
    claimedPayload "a,b,c" = "b,c" ∧ ("b" : String) ≠ "b,c" := by
  refine ⟨by decide, by decide, by decide⟩

/-- C9 amended: for every input string, the inline-data payload is the
element at index 1 of the comma-split (the segment between the first and
second commas) when that element exists and is non-empty, and the entire
input string otherwise; the declared MIME type is always image/jpeg and
the model name is fixed. -/
theorem request_payload_and_mime (env : Env) (img : String) (outcome : GatewayOutcome)
    (parse : String → Option (List FontInfo)) (hkey : jsFalsy env.geminiApiKey = false) :
    (identifyFonts env img outcome parse).2.requests =
      [⟨"gemini-3.1-pro-preview", "image/jpeg", payloadData img⟩] ∧
    (∀ t, (jsSplitComma img)[1]? = some t → payloadData img = (if t == "" then img else t)) ∧
    ((jsSplitComma img)[1]? = none → payloadData img = img) := by
  refine ⟨?_, ?_, ?_⟩
  · unfold identifyFonts
    rw [hkey]
    cases outcome with
    | reject => rfl
    | resolve text =>
      cases text with
      | none => rfl
      | some t => by_cases h : t == "" <;> cases hp : parse t <;> simp [h, hp]
  · intro t ht
    unfold payloadData
    rw [ht]
  · intro ht
    unfold payloadData
    rw [ht]

/-- Closed witness for `request_payload_and_mime`: a concrete data URL
upload declared as PNG is still sent with MIME type image/jpeg, with the
part after its single comma as payload. -/
theorem request_payload_and_mime_witness :
    (identifyFonts ⟨some "k"⟩ "data:image/png;base64,BBBB" GatewayOutcome.reject
        (fun _ => none)).2.requests =
      [⟨"gemini-3.1-pro-preview", "image/jpeg", "BBBB"⟩] :=
  ((request_payload_and_mime ⟨some "k"⟩ "data:image/png;base64,BBBB"
    GatewayOutcome.reject (fun _ => none) (by decide)).1).trans (by decide)

/-- C1 counterexample: starting from a reachable state that displays one
font card, a run whose call rejects shows the generic error notice but
still renders ONE card, not zero: `handleAnalyze` never touches `results`
on the rejection path. -/
theorem reject_keeps_cards_counterexample :
    (handleAnalyze ⟨some "key"⟩ (fun _ => none) GatewayOutcome.reject stateWithResult).error
        = some genericErrorMsg ∧
    (renderedCards (handleAnalyze ⟨some "key"⟩ (fun _ => none) GatewayOutcome.reject
        stateWithResult)).length = 1 := by
  refine ⟨by decide, by decide⟩

/-- C1 amended: for every analysis run in which the call to
`identifyFonts` rejects, the UI afterwards shows the generic error notice
and leaves the results from before the run unchanged (so zero cards are
rendered only when no results were displayed before the run). -/
theorem handleAnalyze_reject_keeps_prior_results (env : Env)
    (parse : String → Option (List FontInfo)) (outcome : GatewayOutcome) (s : UIState)
    (himg : jsFalsy s.image = false)
    (hrej : (identifyFonts env (s.image.getD "") outcome parse).1 = Except.error ()) :
    (handleAnalyze env parse outcome s).error = some genericErrorMsg ∧
    (handleAnalyze env parse outcome s).results = s.results ∧
    (handleAnalyze env parse outcome s).loading = false := by
  unfold handleAnalyze
  rw [himg, hrej]
  simp

/-- Closed witness for `handleAnalyze_reject_keeps_prior_results` at a
concrete state that already displays one result. -/
theorem handleAnalyze_reject_keeps_prior_results_witness :
    (handleAnalyze ⟨some "key"⟩ (fun _ => none) GatewayOutcome.reject
        stateWithResult).results = [font0] :=
  ((handleAnalyze_reject_keeps_prior_results ⟨some "key"⟩ (fun _ => none)
    GatewayOutcome.reject stateWithResult (by decide) (by decide)).2.1).trans (by decide)

/-- C3: whenever `identifyFonts` resolves with the empty array, the UI
renders zero cards and shows the "no fonts could be identified" notice;
moreover any other run on the same state whose call also yields the empty
array (in particular a parse failure) produces the identical UI state. -/
theorem empty_result_renders_notice (env : Env)
    (parse pf : String → Option (List FontInfo)) (outcome outcomeFail : GatewayOutcome)
    (s : UIState) (himg : jsFalsy s.image = false)
    (hres : (identifyFonts env (s.image.getD "") outcome parse).1 = Except.ok [])
    (hfail : (identifyFonts env (s.image.getD "") outcomeFail pf).1 = Except.ok []) :
    renderedCards (handleAnalyze env parse outcome s) = [] ∧
    (handleAnalyze env parse outcome s).error = some noFontsMsg ∧
    handleAnalyze env parse outcome s = handleAnalyze env pf outcomeFail s := by
  unfold handleAnalyze renderedCards
  rw [himg, hres, hfail]
  simp

/-- Closed witness for `empty_result_renders_notice`: a run resolving
with the literal empty array and a run resolving with an unparseable body
both end in the notice state. -/
theorem empty_result_renders_notice_witness :
    (handleAnalyze ⟨some "k"⟩ (fun _ => some []) (GatewayOutcome.resolve (some "[]"))
        stateImgOnly).error = some noFontsMsg :=
  (empty_result_renders_notice ⟨some "k"⟩ (fun _ => some []) (fun _ => none)
    (GatewayOutcome.resolve (some "[]")) (GatewayOutcome.resolve (some "not json"))
    stateImgOnly (by decide) (by decide) (by decide)).2.1

/-- C5: the analysis trigger is disabled exactly when no image is loaded
or a request is in flight.  The hypothesis excludes the empty-string
image, which `FileReader.readAsDataURL` can never produce (a data URL
always starts with `data:`) but which JavaScript `!image` would also
treat as absent. -/
theorem trigger_disabled_iff (s : UIState) (h : s.image ≠ some "") :
    triggerDisabled s = true ↔ (s.image = none ∨ s.loading = true) := by
  cases hi : s.image with
  | none => simp [triggerDisabled, jsFalsy, hi]
  | some img =>
    have hne : ¬(img = "") := by
      intro he
      exact h (by rw [hi, he])
    simp [triggerDisabled, jsFalsy, hi, hne]

/-- Closed witness for `trigger_disabled_iff` at a concrete state with an
image loaded and no request in flight. -/
theorem trigger_disabled_iff_witness :
    triggerDisabled stateWithResult = true ↔
      (stateWithResult.image = none ∨ stateWithResult.loading = true) :=
  trigger_disabled_iff stateWithResult (by decide)

/-- C6: when `identifyFonts` resolves with a non-empty list of records,
exactly those records are rendered as cards, in the array's order (so the
count is its length). -/
theorem success_renders_all_cards (env : Env)
    (parse : String → Option (List FontInfo)) (outcome : GatewayOutcome) (s : UIState)
    (fonts : List FontInfo) (himg : jsFalsy s.image = false)
    (hres : (identifyFonts env (s.image.getD "") outcome parse).1 = Except.ok fonts)
    (hN : 0 < fonts.length) :
    renderedCards (handleAnalyze env parse outcome s) = fonts := by
  unfold handleAnalyze
  rw [himg, hres]
  cases fonts with
  | nil => exact absurd hN (by simp)
  | cons f fs => simp [renderedCards]

/-- Closed witness for `success_renders_all_cards`: a run resolving with
one record renders exactly that card. -/
theorem success_renders_all_cards_witness :
    renderedCards (handleAnalyze ⟨some "k"⟩ (fun _ => some [font0])
        (GatewayOutcome.resolve (some "body")) stateImgOnly) = [font0] :=
  success_renders_all_cards ⟨some "k"⟩ (fun _ => some [font0])
    (GatewayOutcome.resolve (some "body")) stateImgOnly [font0]
    (by decide) (by decide) (by decide)

/-- C7: after `copyToClipboard c`, a rendered character cell shows the
copied indicator exactly when its character equals `c`, across all cards
and positions: the indicator is keyed by character value alone. -/
theorem copied_indicator_by_char_value (s : UIState) (c : String) (f : FontInfo)
    (hf : f ∈ renderedCards (copyToClipboard c s)) (ch : String)
    (hch : ch ∈ cellChars f) :
    (showsCopiedIndicator (copyToClipboard c s) ch = true ↔ ch = c) := by
  simp only [showsCopiedIndicator, copyToClipboard, beq_iff_eq, Option.some.injEq]
  exact eq_comm

/-- Closed witness for `copied_indicator_by_char_value`: after copying
"A" from the card of `font0`, the cell showing "A" has the indicator. -/
theorem copied_indicator_by_char_value_witness :
    showsCopiedIndicator (copyToClipboard "A" stateWithResult) "A" = true :=
  (copied_indicator_by_char_value stateWithResult "A" font0 (by decide) "A"
    (by decide)).mpr rfl

/-- C8: for every outcome of the call (resolve or reject), `handleAnalyze`
is a total state transformer that restores the loading flag to false and
leaves the error field either null or one of the two user-visible
messages; no exception escapes. -/
theorem handleAnalyze_total_safe (env : Env)
    (parse : String → Option (List FontInfo)) (outcome : GatewayOutcome) (s : UIState)
    (himg : jsFalsy s.image = false) :
    (handleAnalyze env parse outcome s).loading = false ∧
    ((handleAnalyze env parse outcome s).error = none ∨
     (handleAnalyze env parse outcome s).error = some noFontsMsg ∨
     (handleAnalyze env parse outcome s).error = some genericErrorMsg) := by
  unfold handleAnalyze
  rw [himg]
  cases hc : (identifyFonts env (s.image.getD "") outcome parse).1 with
  | ok fonts =>
    by_cases hl : fonts.length = 0 <;> simp [hl]
  | error e => simp

/-- Closed witness for `handleAnalyze_total_safe` on a rejecting run. -/
theorem handleAnalyze_total_safe_witness :
    (handleAnalyze ⟨some "k"⟩ (fun _ => none) GatewayOutcome.reject
        stateImgOnly).loading = false :=
  (handleAnalyze_total_safe ⟨some "k"⟩ (fun _ => none) GatewayOutcome.reject
    stateImgOnly (by decide)).1

/-- C10: dropping at least one accepted file replaces the image with the
file's data URL and resets results to empty and error to null, leaving
the loading flag and the copied indicator untouched, from every prior
state; dropping zero accepted files leaves the state unchanged. -/
theorem onDrop_frame (s : UIState) (files : List JsFile) :
    (∀ f, files.head? = some f →
      onDrop files s = { s with image := some f.dataUrl, results := [], error := none }) ∧
    (files = [] → onDrop files s = s) := by
  constructor
  · intro f hf
    unfold onDrop
    rw [hf]
  · intro hf
    subst hf
    rfl

/-- Closed witness for `onDrop_frame`: dropping a concrete file over a
state with prior results installs the new image and clears results and
error. -/
theorem onDrop_frame_witness :
    onDrop [file0] stateWithResult =
      { stateWithResult with
          image := some "data:image/png;base64,BBBB"
          results := []
          error := none } :=
  (onDrop_frame stateWithResult [file0]).1 file0 rfl

end FontFinder
